import Mathlib

namespace Junkora

/-!
# Junkora world simulation: a shallow embedding with verified properties

This file embeds the core simulation logic of the Junkora browser game
(item rarity/quality rolls, the gathering pipeline, stamina catch-up,
the world tick, the save codec, player movement, and remote-player
interpolation) as executable Lean definitions, and proves properties of
those definitions.

Modelling conventions:
* JavaScript numbers are modelled as `ℚ` (all arithmetic in the embedded
  code paths is exact on the values that occur); integer quantities use
  `ℤ` or `ℕ`.
* `Math.random()` is modelled as a draw stream `rng : ℕ → ℚ` together
  with an explicit draw counter, so successive draws read successive
  indices.
* JavaScript objects used as string-keyed dictionaries are modelled as
  total functions `String → ℕ` (missing key ↔ 0) or `String → Option _`.
* Fields that the source guards with `typeof x === 'number'` are
  modelled as `Option`.
-/

/-! ## Item system (item.js): rarity cascade, quality roll, name inference -/

/-- One row of the rarity table: display name and per-trial chance. -/
structure RarityRow where
  name : String
  chance : ℚ
deriving DecidableEq

/-- `RARITIES` from item.js: top-down cascade order (rarest to commonest);
the final `Common` row is only used as a fallback name. -/
def RARITIES : List RarityRow :=
  [ ⟨"Godlike", 1/10000⟩
  , ⟨"Mythic", 1/100⟩
  , ⟨"Legendary", 1/10⟩
  , ⟨"Rare", 1/4⟩
  , ⟨"Uncommon", 1/2⟩
  , ⟨"Common", 4/5⟩ ]

/-- One row of the quality table: display name and weight. -/
structure QualityRow where
  name : String
  weight : ℚ
deriving DecidableEq

/-- `QUALITIES` from item.js (weights sum to 1). -/
def QUALITIES : List QualityRow :=
  [ ⟨"Dull", 3/5⟩
  , ⟨"Normal", 3/10⟩
  , ⟨"Refined", 2/25⟩
  , ⟨"Pristine", 3/200⟩
  , ⟨"Exquisite", 1/200⟩ ]

/-- The loop body of `rollRarityCascade`: walk the rows from index `i` of
the draw stream; break (returning `"Common"`) when the `Common` row is
reached; succeed on the first draw strictly below its row's chance.
Returns the rolled name together with the next unused draw index. -/
def rollRarityGo (rng : ℕ → ℚ) : List RarityRow → ℕ → String × ℕ
  | [], i => ("Common", i)
  | r :: rest, i =>
    if r.name = "Common" then ("Common", i)
    else if rng i < r.chance then (r.name, i + 1)
    else rollRarityGo rng rest (i + 1)

/-- `rollRarityCascade(rng)` from item.js. -/
def rollRarityCascade (rng : ℕ → ℚ) : String :=
  (rollRarityGo rng RARITIES 0).1

/-- The accumulator loop of `rollQuality`: accumulate weights in order and
return the first name whose cumulative sum strictly exceeds the roll. -/
def rollQualityGo (roll : ℚ) : List QualityRow → ℚ → Option String
  | [], _ => none
  | q :: rest, acc =>
    if roll < acc + q.weight then some q.name
    else rollQualityGo roll rest (acc + q.weight)

/-- `rollQuality` applied to an already-drawn value: the loop, with the
source's fallback `QUALITIES[QUALITIES.length - 1].name` when the loop
falls through. -/
def rollQualityName (roll : ℚ) : String :=
  (rollQualityGo roll QUALITIES 0).getD (((QUALITIES.getLast?).map QualityRow.name).getD "")

/-- `rollQuality(rng)` from item.js: draws one value. -/
def rollQuality (rng : ℕ → ℚ) : String :=
  rollQualityName (rng 0)

/-- JavaScript `String.prototype.trim`: drop leading and trailing
whitespace (ASCII whitespace suffices for every name occurring here). -/
def jsTrim (s : String) : String :=
  ⟨((s.data.dropWhile Char.isWhitespace).reverse.dropWhile Char.isWhitespace).reverse⟩

/-- Trailing-whitespace strip (the `\s*` part of the tree-suffix regex). -/
def jsTrimRight (s : String) : String :=
  ⟨(s.data.reverse.dropWhile Char.isWhitespace).reverse⟩

/-- JavaScript `String.prototype.endsWith`. -/
def jsEndsWith (s suffix : String) : Bool :=
  suffix.data.isSuffixOf s.data

/-- JavaScript `String.prototype.slice(0, -n)`: drop the last `n`
characters. -/
def jsDropRight (s : String) (n : ℕ) : String :=
  ⟨s.data.take (s.data.length - n)⟩

/-- JavaScript `String.prototype.toLowerCase` (ASCII range suffices for
the category names used here). -/
def jsToLower (s : String) : String :=
  ⟨s.data.map Char.toLower⟩

/-- `normalizeNodeName` from item.js: `String(name || '').trim()`. -/
def normalizeNodeName (name : String) : String :=
  jsTrim name

/-- `baseTreeName` from item.js: strip one trailing `tree`/`Tree` (with any
preceding whitespace, per the regex `/\s*(tree|Tree)$/g`), then trim. -/
def baseTreeName (nodeName : String) : String :=
  let s := normalizeNodeName nodeName
  let stripped :=
    if jsEndsWith s "Tree" ∨ jsEndsWith s "tree" then jsTrimRight (jsDropRight s 4) else s
  jsTrim stripped

/-- `FRUIT_TREES` from item.js. -/
def FRUIT_TREES : List String :=
  ["Apple", "Lemon", "Mango", "Orange", "Peach", "Coconut"]

/-- `WOOD_TREES` from item.js. -/
def WOOD_TREES : List String :=
  ["Birch", "Maple", "Oak", "Pine", "Willow", "Jacaranda"]

/-- `BLOSSOM_TREES` from item.js: `Map([['Sakura', 'Sakura Blossom']])`. -/
def BLOSSOM_TREES (base : String) : Option String :=
  if base = "Sakura" then some "Sakura Blossom" else none

/-- `inferTreeItem` from item.js. -/
def inferTreeItem (nodeName : String) : String :=
  let base := baseTreeName nodeName
  if FRUIT_TREES.contains base then base
  else
    match BLOSSOM_TREES base with
    | some blossom => blossom
    | none => base ++ " Wood"

/-- `inferFlowerItem` from item.js: "For flowers, the item is the flower
itself." -/
def inferFlowerItem (nodeName : String) : String :=
  normalizeNodeName nodeName

/-- `inferMineralItem` from item.js. -/
def inferMineralItem (nodeName : String) : String :=
  normalizeNodeName nodeName

/-- The item-name resolution inside `ItemSystem.gather` (item.js):
lower-case the category and dispatch; an unknown category throws in the
source, modelled as `none`. -/
def gatherItemName (category nodeName : String) : Option String :=
  let cat := jsToLower category
  if cat = "tree" then some (inferTreeItem nodeName)
  else if cat = "flower" then some (inferFlowerItem nodeName)
  else if cat = "mineral" then some (inferMineralItem nodeName)
  else none

/-- The flower item name resolved by `GatherSystem.resolveFlowerTuple`
(the gather-system module): `"{base} Petals"` where `base` is the trimmed
node name.  This is a distinct code path from `ItemSystem.gather` and is
not invoked by `finishGathering`. -/
def resolveFlowerTupleName (nodeName : String) : String :=
  let base := jsTrim nodeName
  base ++ " Petals"

/-- Specification-side rarity roll, written exactly as the spec describes
it: five ordered trials, rarest first, each drawing one value and
succeeding iff the value is strictly below its threshold; first success
wins; all-fail gives Common.  Used to compare against the source's
`rollRarityCascade`. -/
def rollRaritySpec (rng : ℕ → ℚ) : String :=
  if rng 0 < 1/10000 then "Godlike"
  else if rng 1 < 1/100 then "Mythic"
  else if rng 2 < 1/10 then "Legendary"
  else if rng 3 < 1/4 then "Rare"
  else if rng 4 < 1/2 then "Uncommon"
  else "Common"

/-- Specification-side quality roll, written exactly as the spec describes
it: one draw against the cumulative sums 0.6, 0.9, 0.98, 0.995 with
exclusive-upper boundaries and terminal fallback to Exquisite. -/
def rollQualitySpec (rng : ℕ → ℚ) : String :=
  let v := rng 0
  if v < 3/5 then "Dull"
  else if v < 9/10 then "Normal"
  else if v < 49/50 then "Refined"
  else if v < 199/200 then "Pristine"
  else "Exquisite"

/-- The category string `finishGathering` (preloader.js) derives from a
decoration's layer type: `'Trees' → 'tree'`, `'flowers' → 'flower'`,
anything else `→ 'mineral'`. -/
def gatherCategory (dtype : String) : String :=
  if dtype = "Trees" then "tree"
  else if dtype = "flowers" then "flower"
  else "mineral"

/-- The node name `finishGathering` passes to `ItemSystem.gather`:
`` `${d.kind} Tree` `` for trees, else `d.kind || 'Unknown'`. -/
def gatherNodeName (category kind : String) : String :=
  if category = "tree" then kind ++ " Tree"
  else if kind = "" then "Unknown" else kind

/-- The item name produced by the gather path that `finishGathering`
actually invokes on completion (`window.ItemSystem.gather`). -/
def finishGatherItemName (dtype kind : String) : Option String :=
  gatherItemName (gatherCategory dtype) (gatherNodeName (gatherCategory dtype) kind)

/-! ## Stamina engine (mechanics.js) -/

/-- `STAMINA_REGEN_INTERVAL_MS` from mechanics.js: 5 minutes. -/
def STAMINA_REGEN_INTERVAL_MS : ℤ := 5 * 60 * 1000

/-- `Mechanics.stamina` plus the regen baseline: `lastRegenAt` is guarded
by `typeof … !== 'number'` in the source, hence `Option`. -/
structure StaminaState where
  maxStamina : ℚ
  current : ℚ
  lastRegenAt : Option ℤ
deriving DecidableEq

/-- `Mechanics.drain(amount)`: clamp at zero. -/
def staminaDrain (amount : ℚ) (s : StaminaState) : StaminaState :=
  { s with current := max 0 (s.current - amount) }

/-- `Mechanics.regen(amount)`: clamp at max. -/
def staminaRegen (amount : ℚ) (s : StaminaState) : StaminaState :=
  { s with current := min s.maxStamina (s.current + amount) }

/-- `Mechanics.__applyStaminaCatchup` from mechanics.js, at wall-clock
instant `now` (`Date.now()`, whole milliseconds): missing baseline is
initialised to `now`; under one whole interval elapsed is a no-op; an
already-full pool resets the baseline to `now`; otherwise regen
`min(ticks, room)` in one step and advance the baseline by
`ticks × interval`. -/
def applyStaminaCatchup (now : ℤ) (s : StaminaState) : StaminaState :=
  match s.lastRegenAt with
  | none => { s with lastRegenAt := some now }
  | some lra =>
    let elapsed := now - lra
    if elapsed < STAMINA_REGEN_INTERVAL_MS then s
    else if s.maxStamina ≤ s.current then { s with lastRegenAt := some now }
    else
      let ticks := Int.fdiv elapsed STAMINA_REGEN_INTERVAL_MS
      if 0 < ticks then
        let room := max 0 (s.maxStamina - s.current)
        let add := min (ticks : ℚ) room
        let s' := if 0 < add then staminaRegen add s else s
        { s' with lastRegenAt := some (lra + ticks * STAMINA_REGEN_INTERVAL_MS) }
      else s

/-! ## World tiles and the persistence codec (preloader.js) -/

/-- `WORLD_W` from preloader.js. -/
def WORLD_W : ℤ := 256

/-- `WORLD_H` from preloader.js. -/
def WORLD_H : ℤ := 120

/-- `TILE.Water` from the preloader tileset. -/
def TILE_Water : ℕ := 3

/-- `inBounds(x, y)` from preloader.js. -/
def inBounds (x y : ℤ) : Prop :=
  0 ≤ x ∧ 0 ≤ y ∧ x < WORLD_W ∧ y < WORLD_H

instance (x y : ℤ) : Decidable (inBounds x y) := by
  unfold inBounds; infer_instance

/-- A planted crop: `{ type, stage, growthMs }`. -/
structure Plant where
  type : String
  stage : ℕ
  growthMs : ℚ
deriving DecidableEq

/-- A tile record as built by `makeTile` (preloader.js). -/
structure Tile where
  tileId : ℕ
  tilled : Bool
  watered : Bool
  waterEndAt : ℚ
  plant : Option Plant
  coordX : ℤ
  coordY : ℤ
  walkable : Bool
deriving DecidableEq

/-- `makeTile(x, y, baseId)` from preloader.js: water is not walkable. -/
def makeTile (x y : ℤ) (baseId : ℕ) : Tile :=
  { tileId := baseId
  , tilled := false
  , watered := false
  , waterEndAt := 0
  , plant := none
  , coordX := x
  , coordY := y
  , walkable := baseId ≠ TILE_Water }

/-- The serialized per-plant record `{ ty, st, gm }`: `gm` is
`Math.floor(growthMs || 0)`. -/
structure PlantRec where
  ty : String
  st : ℕ
  gm : ℤ
deriving DecidableEq

/-- The serialized per-tile record pushed by `serializeWorld`: the source
stores `ti`/`wa`/`w` as `1/0` numbers, modelled as `Bool` (composed with
the loading side's `!!` coercion). `wr` is the **remaining** water
duration in ms, not an absolute timestamp. -/
structure TileRec where
  i : ℕ
  ti : Bool
  wa : Bool
  wr : ℤ
  pl : Option PlantRec
  w : Bool
deriving DecidableEq

/-- The per-tile body of `serializeWorld` (preloader.js), at save instant
`now` (`performance.now()`). -/
def serializeTile (now : ℚ) (t : Tile) : TileRec :=
  { i := t.tileId
  , ti := t.tilled
  , wa := t.watered
  , wr := if t.watered then max 0 (Int.floor (t.waterEndAt - now)) else 0
  , pl := t.plant.map fun p => ⟨p.type, p.stage, Int.floor p.growthMs⟩
  , w := t.walkable }

/-- The per-tile body of `deserializeWorld` (preloader.js), at load
instant `now`: starts from `makeTile` and re-bases the remaining water
duration against `now`. -/
def deserializeTile (now : ℚ) (x y : ℤ) (r : TileRec) : Tile :=
  { makeTile x y r.i with
    tilled := r.ti
  , watered := r.wa
  , waterEndAt := if r.wa then now + (r.wr : ℚ) else 0
  , plant := r.pl.map fun p => ⟨p.ty, p.st, (p.gm : ℚ)⟩
  , walkable := r.w }

/-- `serializeWorld` (preloader.js): row-major dump of the whole grid. -/
def serializeWorld (now : ℚ) (w : ℤ → ℤ → Tile) : List (List TileRec) :=
  (List.range WORLD_H.toNat).map fun y =>
    (List.range WORLD_W.toNat).map fun x =>
      serializeTile now (w (Int.ofNat x) (Int.ofNat y))

/-- `deserializeWorld` (preloader.js), as a lookup into the rebuilt grid:
`grid[y][x] = deserializeTile(now, x, y, rows[y][x])`. -/
def deserializeWorld (now : ℚ) (rows : List (List TileRec)) (x y : ℤ) : Option Tile :=
  if inBounds x y then
    (rows[y.toNat]?.bind fun row => row[x.toNat]?).map (deserializeTile now x y)
  else none

/-- A concrete world used to instantiate hypothesised theorems: every
tile is watered grass with remaining water and a stage-1 turnip. -/
def sampleWorld : ℤ → ℤ → Tile :=
  fun x y =>
    { tileId := 0
    , tilled := true
    , watered := true
    , waterEndAt := 5000
    , plant := some ⟨"turnip", 1, 300⟩
    , coordX := x
    , coordY := y
    , walkable := true }

/-! ## Growth/tick engine (preloader.js `tickWorld`) -/

/-- A crop definition from the `CROPS` table: stage durations in ms and
the per-stage colour list (its length is the stage count). -/
structure Crop where
  display : String
  seedPrice : ℕ
  sellPrice : ℕ
  stageMs : List ℚ
  colors : List String
deriving DecidableEq

/-- The `CROPS` table from preloader.js. -/
def CROPS (ty : String) : Option Crop :=
  if ty = "turnip" then
    some ⟨"Turnip", 10, 25, [8000, 12000, 0], ["#7a552e", "#7fc96b", "#4ea24d"]⟩
  else if ty = "wheat" then
    some ⟨"Wheat", 12, 20, [12000, 18000, 0], ["#7a552e", "#8bbf6f", "#d2b84c"]⟩
  else if ty = "corn" then
    some ⟨"Corn", 20, 40, [16000, 22000, 0], ["#7a552e", "#6bbf59", "#f1c40f"]⟩
  else none

/-- The per-tile body of `tickWorld` (preloader.js): water evaporation
(`now >= waterEndAt` clears the flag) followed by growth, which runs only
while the tile is (still) watered: add the tick's `dtMs` to `growthMs`,
then advance one stage iff the stage is not terminal, its required
duration is positive, and the accumulated `growthMs` reaches it; on
advance `growthMs` resets to 0.  An unknown crop type would throw in the
source; it is modelled as leaving the tile unchanged (the theorems below
only consider known crops). -/
def tickTile (dtMs now : ℚ) (t : Tile) : Tile :=
  let t1 :=
    if t.watered ∧ now ≥ t.waterEndAt then
      { t with watered := false, waterEndAt := 0 }
    else t
  match t1.plant with
  | none => t1
  | some p =>
    if t1.watered then
      match CROPS p.type with
      | none => t1
      | some c =>
        let g := p.growthMs + dtMs
        let needed := c.stageMs.getD p.stage 0
        if (p.stage < c.colors.length - 1 ∧ 0 < needed) ∧ needed ≤ g then
          { t1 with plant := some ⟨p.type, p.stage + 1, 0⟩ }
        else
          { t1 with plant := some ⟨p.type, p.stage, g⟩ }
    else t1

/-- `tickWorld(dtMs, now)` as a grid transformer: every in-bounds tile is
advanced by `tickTile`. -/
def tickWorldFn (dtMs now : ℚ) (w : ℤ → ℤ → Tile) : ℤ → ℤ → Tile :=
  fun x y => if inBounds x y then tickTile dtMs now (w x y) else w x y

/-! ## Game state: decorations, inventory, skills, gathering, movement -/

/-- A gatherable/static decoration; `remainingHarvests` is guarded by
`typeof … === 'number'` in the source, hence `Option`. -/
structure Decor where
  x : ℤ
  y : ℤ
  type : String
  kind : String
  remainingHarvests : Option ℤ
deriving DecidableEq

/-- The `last` metadata recorded per item name. -/
structure LastInfo where
  rarity : String
  quality : String
  category : String
  source : String
deriving DecidableEq

/-- `Game.inv.itemMeta[name]`: running counts plus last-seen info. -/
structure ItemMeta where
  total : ℕ
  countsByRarity : String → ℕ
  countsByQuality : String → ℕ
  last : Option LastInfo

/-- The inventory stacks touched by gathering: the legacy aggregate
`items`, the per-identity `gitems` (keyed `name__rarity__quality`), and
`itemMeta`. -/
structure Inv where
  items : String → ℕ
  gitems : String → ℕ
  itemMeta : String → Option ItemMeta

/-- One skill: `{ level, exp }` (exp is a non-negative integer here; the
source only ever awards positive integer amounts). -/
structure Skill where
  level : ℕ
  exp : ℕ
deriving DecidableEq

/-- `Game.player`. -/
structure Player where
  x : ℤ
  y : ℤ
  facing : String
  lastMoveAt : ℚ
deriving DecidableEq

/-- `Game.gather`: the gather state machine.  The source stores the
target decoration by object reference; it is modelled as the index of
that object in the decoration array. -/
structure GatherState where
  active : Bool
  target : Option ℕ
  startAt : ℚ
  duration : ℚ
  progress : ℚ
deriving DecidableEq

/-- The slice of the global `Game`/`Mechanics` state the gathering and
movement logic reads and writes. -/
structure GState where
  world : ℤ → ℤ → Tile
  decor : List Decor
  player : Player
  inv : Inv
  skills : String → Option Skill
  stamina : ℚ
  tool : String
  gather : GatherState

/-- `obj[k] = (obj[k] || 0) + 1` on a string-keyed counter. -/
def bump (f : String → ℕ) (k : String) : String → ℕ :=
  fun s => if s = k then f k + 1 else f s

/-- `decorAt(x, y)` from preloader.js. -/
def decorAt (ds : List Decor) (x y : ℤ) : Option Decor :=
  ds.find? fun d => d.x == x && d.y == y

/-- `isBlocked(x, y)` from preloader.js: out of bounds, non-walkable
tile, or a tree/mineral decoration. -/
def isBlocked (w : ℤ → ℤ → Tile) (ds : List Decor) (x y : ℤ) : Bool :=
  if ¬ inBounds x y then true
  else if ¬ (w x y).walkable then true
  else
    match decorAt ds x y with
    | some d => d.type == "Trees" || d.type == "minerals"
    | none => false

/-- `MOVE_COOLDOWN_MS` from preloader.js. -/
def MOVE_COOLDOWN_MS : ℚ := 120

/-- `GATHER_TIME_MS` from preloader.js. -/
def GATHER_TIME_MS : ℚ := 1500

/-- `stepPlayer` from preloader.js, for one already-resolved desired
direction (`desiredDirFromKeys()` result) at frame time `now`: locked
while gathering; inside the movement cooldown only the facing turns;
otherwise face the direction and move one tile iff the destination is
not blocked. -/
def stepPlayer (s : GState) (desired : Option String) (now : ℚ) : GState :=
  if s.gather.active then s
  else
    match desired with
    | none => s
    | some dir =>
      if now - s.player.lastMoveAt < MOVE_COOLDOWN_MS then
        { s with player := { s.player with facing := dir } }
      else
        let dx : ℤ := if dir = "left" then -1 else if dir = "right" then 1 else 0
        let dy : ℤ := if dir = "up" then -1 else if dir = "down" then 1 else 0
        let nx := s.player.x + dx
        let ny := s.player.y + dy
        let s1 := { s with player := { s.player with facing := dir } }
        if ¬ isBlocked s.world s.decor nx ny then
          { s1 with player := { s1.player with x := nx, y := ny, lastMoveAt := now } }
        else s1

/-- The `typeof d.remainingHarvests === 'number' && d.remainingHarvests <= 0`
check of `startGathering`. -/
def harvestsDepleted (d : Decor) : Bool :=
  match d.remainingHarvests with
  | some rh => decide (rh ≤ 0)
  | none => false

/-- `startGathering({d})` from preloader.js at frame time `now`, with the
candidate decoration given by its index in the decoration array.  Returns
the new state together with the floating-text signal, if any: a depleted
decoration signals `Depleted`, stamina below 1 signals `Out of stamina`,
and neither changes any state; otherwise the gather state machine becomes
active over the target and the tool switches to the hand. -/
def startGathering (s : GState) (idx : ℕ) (now : ℚ) : GState × Option String :=
  match s.decor[idx]? with
  | none => (s, none)
  | some d =>
    if harvestsDepleted d then (s, some "Depleted")
    else if s.stamina < 1 then (s, some "Out of stamina")
    else
      ({ s with
          gather := { active := true, target := some idx, startAt := now
                    , duration := GATHER_TIME_MS, progress := 0 }
        , tool := "hand" }, none)

/-- `expNeededFor(level)` from preloader.js: `10 + (max(1, level) − 1) × 10`. -/
def expNeededFor (level : ℕ) : ℕ :=
  10 + (max 1 level - 1) * 10

/-- The `while (s.exp >= expNeededFor(s.level))` level-up loop of
`awardSkillExp`: returns the final `(exp, level)`. -/
def levelLoop (exp level : ℕ) : ℕ × ℕ :=
  if h : expNeededFor level ≤ exp then
    levelLoop (exp - expNeededFor level) (level + 1)
  else (exp, level)
termination_by exp
decreasing_by
  have hpos : 0 < expNeededFor level := by
    unfold expNeededFor; omega
  exact Nat.sub_lt (lt_of_lt_of_le hpos h) hpos

/-- `ensureSkills()` from preloader.js: fill in the three default skills
where missing; other keys are untouched. -/
def ensureSkills (sk : String → Option Skill) : String → Option Skill :=
  fun k =>
    match sk k with
    | some s => some s
    | none =>
      if k = "mining" ∨ k = "flower" ∨ k = "harvesting" then some ⟨1, 0⟩ else none

/-- `awardSkillExp(key, amount)` from preloader.js: ensure defaults, add
the (non-negative) amount, then run the level-up loop. -/
def awardSkillExp (key : String) (amount : ℕ) (sk : String → Option Skill) :
    String → Option Skill :=
  let sk1 := ensureSkills sk
  match sk1 key with
  | none => sk1
  | some s0 =>
    let r := levelLoop (s0.exp + amount) s0.level
    fun k => if k = key then some ⟨r.2, r.1⟩ else sk1 k

/-- The category→skill mapping inside `finishGathering`. -/
def skillForCategory (category : String) : Option String :=
  if category = "mineral" then some "mining"
  else if category = "flower" then some "flower"
  else if category = "tree" then some "harvesting"
  else none

/-- `finishGathering()` from preloader.js, with the `Math.random` stream
`rng` (the rarity cascade draws first, then the quality roll, then — for
trees and flowers only — the 2% bonus-seed roll).  Effects, in source
order: resolve the item name via `ItemSystem.gather`; bump the legacy
`items` stack and the per-identity `gitems` stack; update `itemMeta`
(totals, per-rarity/quality counts, last-seen); possibly add a bonus
`"{kind} Seed"` per-identity stack; award 1 exp to the category-mapped
skill; drain 1 stamina (clamped at 0); decrement `remainingHarvests`
(clamped at 0) and, on reaching 0, restore the tile's walkability and
remove the decoration.  A missing target, or the exception an unknown
category would raise inside `ItemSystem.gather`, leaves the state
unchanged (the source catches it and only shows a failure signal). -/
def finishGathering (rng : ℕ → ℚ) (s : GState) : GState :=
  match s.gather.target with
  | none => s
  | some idx =>
    match s.decor[idx]? with
    | none => s
    | some d =>
      let category := gatherCategory d.type
      let nodeName := gatherNodeName category d.kind
      match gatherItemName category nodeName with
      | none => s
      | some name =>
        let rar := rollRarityGo rng RARITIES 0
        let rarity := rar.1
        let quality := rollQualityName (rng rar.2)
        let items1 := bump s.inv.items name
        let gkey := name ++ "__" ++ rarity ++ "__" ++ quality
        let gitems1 := bump s.inv.gitems gkey
        let mm := (s.inv.itemMeta name).getD ⟨0, fun _ => 0, fun _ => 0, none⟩
        let mm1 : ItemMeta :=
          { total := mm.total + 1
          , countsByRarity := bump mm.countsByRarity rarity
          , countsByQuality := bump mm.countsByQuality quality
          , last := some ⟨rarity, quality, category, nodeName⟩ }
        let itemMeta1 := fun k => if k = name then some mm1 else s.inv.itemMeta k
        let base := jsTrim d.kind
        let gitems2 :=
          if (category = "tree" ∨ category = "flower") ∧ rng (rar.2 + 1) < 1/50 ∧
              d.kind ≠ "" ∧ base ≠ "" then
            bump gitems1 (base ++ " Seed" ++ "__Unknown__Unknown")
          else gitems1
        let skills1 :=
          match skillForCategory category with
          | some key => awardSkillExp key 1 s.skills
          | none => s.skills
        let stamina1 := max 0 (s.stamina - 1)
        match d.remainingHarvests with
        | none =>
          { s with inv := ⟨items1, gitems2, itemMeta1⟩, skills := skills1, stamina := stamina1 }
        | some rh =>
          let rh1 := max 0 (rh - 1)
          if rh1 = 0 then
            { s with
                inv := ⟨items1, gitems2, itemMeta1⟩
              , skills := skills1
              , stamina := stamina1
              , world := fun a b =>
                  if inBounds d.x d.y ∧ a = d.x ∧ b = d.y then
                    { s.world a b with walkable := true }
                  else s.world a b
              , decor := s.decor.eraseIdx idx }
          else
            { s with
                inv := ⟨items1, gitems2, itemMeta1⟩
              , skills := skills1
              , stamina := stamina1
              , decor := s.decor.set idx { d with remainingHarvests := some rh1 } }

/-- A concrete game state used to instantiate hypothesised theorems: one
mineral decoration with one harvest left, the gather state machine idle
but targeting it. -/
def sampleState : GState :=
  { world := sampleWorld
  , decor := [⟨3, 4, "minerals", "Copper Ore", some 1⟩]
  , player := ⟨1, 1, "down", 0⟩
  , inv := ⟨fun _ => 0, fun _ => 0, fun _ => none⟩
  , skills := fun _ => none
  , stamina := 5
  , tool := "hoe"
  , gather := ⟨false, some 0, 0, GATHER_TIME_MS, 0⟩ }

/-! ## Remote-player interpolation (preloader.js `initPresence`) -/

/-- Per-remote-player smoothing state (`Game.othersView[uid]`): rendered
position `(rx, ry)`, authoritative target `(tx, ty)`, estimated velocity
`(vx, vy)` in tiles/sec, facing, and the time of the last update. -/
structure RemoteView where
  rx : ℚ
  ry : ℚ
  tx : ℚ
  ty : ℚ
  vx : ℚ
  vy : ℚ
  facing : String
  lastUpdate : ℚ
deriving DecidableEq

/-- The per-peer body of the presence `sync` handler: floor the incoming
coordinates, estimate the elapsed seconds (clamped below at 1 ms), set
the new target, then either estimate velocity (delta within 3 tiles on
both axes) or treat the update as a teleport (zero velocity, snap the
rendered position onto the target); finally derive facing from the
dominant axis of the delta. -/
def applySyncUpdate (v : RemoteView) (x y now : ℚ) : RemoteView :=
  let ox : ℤ := Int.floor x
  let oy : ℤ := Int.floor y
  let dtSec := max (1/1000) ((now - v.lastUpdate) / 1000)
  let dx := (ox : ℚ) - v.tx
  let dy := (oy : ℚ) - v.ty
  let v1 := { v with tx := (ox : ℚ), ty := (oy : ℚ) }
  let v2 :=
    if |dx| ≤ 3 ∧ |dy| ≤ 3 then
      { v1 with vx := dx / dtSec, vy := dy / dtSec }
    else
      { v1 with vx := 0, vy := 0, rx := (ox : ℚ), ry := (oy : ℚ) }
  let v3 :=
    if |dy| ≤ |dx| then
      { v2 with facing := if 0 < dx then "right" else if dx < 0 then "left" else v2.facing }
    else
      { v2 with facing := if 0 < dy then "down" else if dy < 0 then "up" else v2.facing }
  { v3 with lastUpdate := now }

/-- The body of the `movement` broadcast handler: same velocity/teleport
logic as the sync handler, except that a zero `lastUpdate` falls back to
`now` (the `v.lastUpdate || now` guard) and facing is taken from the
payload when it is a string. -/
def applyMovementUpdate (v : RemoteView) (x y : ℚ) (facing : Option String)
    (now : ℚ) : RemoteView :=
  let ox : ℤ := Int.floor x
  let oy : ℤ := Int.floor y
  let lu := if v.lastUpdate = 0 then now else v.lastUpdate
  let dtSec := max (1/1000) ((now - lu) / 1000)
  let dx := (ox : ℚ) - v.tx
  let dy := (oy : ℚ) - v.ty
  let v1 := { v with tx := (ox : ℚ), ty := (oy : ℚ) }
  let v2 :=
    if |dx| ≤ 3 ∧ |dy| ≤ 3 then
      { v1 with vx := dx / dtSec, vy := dy / dtSec }
    else
      { v1 with vx := 0, vy := 0, rx := (ox : ℚ), ry := (oy : ℚ) }
  let v3 := { v2 with facing := facing.getD v2.facing }
  { v3 with lastUpdate := now }

/-- The rarity rolled by `ItemSystem.gather` under the draw stream `rng`
(the cascade starting at draw 0). -/
def gatherRolledRarity (rng : ℕ → ℚ) : String :=
  (rollRarityGo rng RARITIES 0).1

/-- The quality rolled by `ItemSystem.gather` under the draw stream `rng`
(one draw after the cascade's draws). -/
def gatherRolledQuality (rng : ℕ → ℚ) : String :=
  rollQualityName (rng (rollRarityGo rng RARITIES 0).2)

/-! ## Verified properties -/

/-! ## C2: rarity cascade -/

/-- C2: for every random source, the source's cascading rarity roll agrees
with the ordered-trials description (thresholds 0.0001, 0.01, 0.10, 0.25,
0.50, strict comparison, first success wins, Common fallback), and in
particular an rng constantly 0 yields Godlike and an rng constantly 0.99
yields Common. -/
theorem rollRarityCascade_spec :
    (∀ rng : ℕ → ℚ, rollRarityCascade rng = rollRaritySpec rng) ∧
    rollRarityCascade (fun _ => 0) = "Godlike" ∧
    rollRarityCascade (fun _ => 99/100) = "Common" := by
  have h : ∀ rng : ℕ → ℚ, rollRarityCascade rng = rollRaritySpec rng := by
    intro rng
    simp [rollRarityCascade, RARITIES, rollRarityGo, rollRaritySpec, apply_ite Prod.fst]
  refine ⟨h, ?_, ?_⟩
  · rw [h]; simp only [rollRaritySpec]; norm_num
  · rw [h]; simp only [rollRaritySpec]; norm_num

/-! ## C7: quality roll -/

/-- C7: for every random source, the source's quality roll agrees with the
single-draw cumulative-weight description in the fixed order Dull(0.60),
Normal(0.30), Refined(0.08), Pristine(0.015), Exquisite(0.005) with
exclusive-upper boundaries and guaranteed fallback to Exquisite; an rng
constantly 0 yields Dull, an rng constantly 0.999 yields Exquisite, and a
draw exactly equal to a cumulative sum (0.6) falls into the next bucket
(Normal). -/
theorem rollQuality_spec :
    (∀ rng : ℕ → ℚ, rollQuality rng = rollQualitySpec rng) ∧
    rollQuality (fun _ => 0) = "Dull" ∧
    rollQuality (fun _ => 999/1000) = "Exquisite" ∧
    rollQuality (fun _ => 3/5) = "Normal" := by
  have h : ∀ rng : ℕ → ℚ, rollQuality rng = rollQualitySpec rng := by
    intro rng
    simp only [rollQuality, rollQualityName, rollQualityGo, QUALITIES, rollQualitySpec]
    norm_num
    split_ifs <;> simp
  refine ⟨h, ?_, ?_, ?_⟩
  · rw [h]; simp only [rollQualitySpec]; norm_num
  · rw [h]; simp only [rollQualitySpec]; norm_num
  · rw [h]; simp only [rollQualitySpec]; norm_num

/-! ## C1: flower gather item name -/

/-- C1 counterexample: a completed gather on the flower decoration `Rose`
produces the item name `"Rose"`, not `"Rose Petals"`: the completion path
(`finishGathering` → `ItemSystem.gather` → `inferFlowerItem`) returns the
flower's own name; the `" Petals"` suffix exists only in
`GatherSystem.resolveFlowerTuple`, which that path does not invoke. -/
theorem flowerGatherName_counterexample :
    finishGatherItemName "flowers" "Rose" = some "Rose" ∧
    resolveFlowerTupleName "Rose" = "Rose Petals" ∧
    finishGatherItemName "flowers" "Rose" ≠ some "Rose Petals" := by
  refine ⟨by decide, by decide, by decide⟩

/-- C1 amended: for every flower decoration with a nonempty kind, the item
name produced by a completed gather is the flower's own (trimmed) name,
with no suffix; the `"{flowerName} Petals"` convention belongs to
`GatherSystem.resolveFlowerTuple`, a path not invoked on completion. -/
theorem flowerGatherName_amended (kind : String) (h : kind ≠ "") :
    finishGatherItemName "flowers" kind = some (jsTrim kind) ∧
    resolveFlowerTupleName kind = jsTrim kind ++ " Petals" := by
  constructor
  · simp [finishGatherItemName, gatherCategory, gatherNodeName, gatherItemName,
      inferFlowerItem, normalizeNodeName, jsToLower, h]
  · simp [resolveFlowerTupleName]

/-- Witness for the amended C1 at the concrete flower `Rose`. -/
theorem flowerGatherName_amended_witness :
    finishGatherItemName "flowers" "Rose" = some (jsTrim "Rose") ∧
    resolveFlowerTupleName "Rose" = jsTrim "Rose" ++ " Petals" :=
  flowerGatherName_amended "Rose" (by decide)

/-! ## C4: stamina catch-up -/

/-- C4 counterexample: with the pool already full (`current = max`) and
3 whole intervals plus 1 ms elapsed, the catch-up resets `lastRegenAt`
to `now` — an advance of `3 × interval + 1` ms, strictly more than
`elapsedIntervals × interval` — refuting the claim's "never by more" for
states with `current = max`. -/
theorem staminaCatchup_counterexample :
    Int.fdiv (900001 - 0) STAMINA_REGEN_INTERVAL_MS = 3 ∧
    (applyStaminaCatchup 900001 ⟨100, 100, some 0⟩).lastRegenAt = some 900001 ∧
    some (0 + 3 * STAMINA_REGEN_INTERVAL_MS) ≠
      (applyStaminaCatchup 900001 ⟨100, 100, some 0⟩).lastRegenAt := by
  refine ⟨by decide, ?_, ?_⟩ <;>
    norm_num [applyStaminaCatchup, STAMINA_REGEN_INTERVAL_MS]

/-- C4 amended: for every stamina state with `current < max` and at least
one whole 5-minute interval elapsed since `lastRegenAt`, the catch-up
increases `current` by `min(elapsedIntervals, max − current)` (which never
exceeds `max`) and advances `lastRegenAt` by exactly
`elapsedIntervals × interval`.  (When `current ≥ max` the source instead
resets `lastRegenAt` to `now`, which can advance it by more.) -/
theorem staminaCatchup_amended (s : StaminaState) (now lra : ℤ)
    (hlra : s.lastRegenAt = some lra)
    (helapsed : STAMINA_REGEN_INTERVAL_MS ≤ now - lra)
    (hcur : s.current < s.maxStamina) :
    (applyStaminaCatchup now s).current =
      s.current +
        min ((Int.fdiv (now - lra) STAMINA_REGEN_INTERVAL_MS : ℤ) : ℚ)
          (s.maxStamina - s.current) ∧
    (applyStaminaCatchup now s).current ≤ s.maxStamina ∧
    (applyStaminaCatchup now s).lastRegenAt =
      some (lra + Int.fdiv (now - lra) STAMINA_REGEN_INTERVAL_MS * STAMINA_REGEN_INTERVAL_MS) := by
  have hint : (0:ℤ) < STAMINA_REGEN_INTERVAL_MS := by decide
  have hticks : 1 ≤ Int.fdiv (now - lra) STAMINA_REGEN_INTERVAL_MS := by
    rw [Int.fdiv_eq_ediv _ (le_of_lt hint), Int.le_ediv_iff_mul_le hint]
    simpa using helapsed
  have hticksQ : (1:ℚ) ≤ ((Int.fdiv (now - lra) STAMINA_REGEN_INTERVAL_MS : ℤ) : ℚ) := by
    exact_mod_cast hticks
  have hroom : (0:ℚ) < s.maxStamina - s.current := by linarith
  have hmax : max 0 (s.maxStamina - s.current) = s.maxStamina - s.current :=
    max_eq_right (le_of_lt hroom)
  have hadd : (0:ℚ) <
      min ((Int.fdiv (now - lra) STAMINA_REGEN_INTERVAL_MS : ℤ) : ℚ)
        (s.maxStamina - s.current) :=
    lt_min (by linarith) hroom
  have haddle : min ((Int.fdiv (now - lra) STAMINA_REGEN_INTERVAL_MS : ℤ) : ℚ)
      (s.maxStamina - s.current) ≤ s.maxStamina - s.current :=
    min_le_right _ _
  simp only [applyStaminaCatchup, hlra]
  rw [if_neg (by omega : ¬(now - lra < STAMINA_REGEN_INTERVAL_MS)),
    if_neg (not_le.mpr hcur), if_pos (by omega : (0:ℤ) < Int.fdiv (now - lra) STAMINA_REGEN_INTERVAL_MS)]
  simp only [hmax]
  rw [if_pos hadd]
  refine ⟨?_, ?_, trivial⟩
  · simp only [staminaRegen]
    rw [min_eq_right (by linarith)]
  · simp only [staminaRegen]
    rw [min_eq_right (by linarith)]
    linarith

/-- Witness for the amended C4 at the spec's own instance:
`lastRegenAt = now − 3×interval`, `current = max − 1`: the pool fills to
`max` and the baseline advances by exactly `3 × interval`. -/
theorem staminaCatchup_amended_witness :
    (applyStaminaCatchup 900000 ⟨100, 99, some 0⟩).current =
      99 + min ((Int.fdiv (900000 - 0) STAMINA_REGEN_INTERVAL_MS : ℤ) : ℚ) (100 - 99) ∧
    (applyStaminaCatchup 900000 ⟨100, 99, some 0⟩).current ≤ 100 ∧
    (applyStaminaCatchup 900000 ⟨100, 99, some 0⟩).lastRegenAt =
      some (0 + Int.fdiv (900000 - 0) STAMINA_REGEN_INTERVAL_MS * STAMINA_REGEN_INTERVAL_MS) :=
  staminaCatchup_amended ⟨100, 99, some 0⟩ 900000 0 rfl (by decide) (by norm_num)

/-! ## C3: save/load round-trip for watered tiles -/

/-- C3: round-trip law of the world codec.  For an in-bounds tile with
`watered = true` and remaining water duration `r = waterEndAt − now ≥ 0`
at save time, serializing the world at `now` and deserializing at `now2`
yields exactly the per-tile composition, whose result is watered, whose
serialized `wr` field is the floored remaining duration (not an absolute
timestamp), whose new remaining duration `waterEndAt − now2` is within
1 ms below `r`, and whose plant type/stage/growthMs (the latter within
1 ms), tilled, tileId and walkable fields are reproduced. -/
theorem worldCodec_roundTrip (w : ℤ → ℤ → Tile) (now now2 : ℚ) (x y : ℤ)
    (hb : inBounds x y)
    (hw : (w x y).watered = true)
    (hr : 0 ≤ (w x y).waterEndAt - now) :
    deserializeWorld now2 (serializeWorld now w) x y =
      some (deserializeTile now2 x y (serializeTile now (w x y))) ∧
    (serializeTile now (w x y)).wr = Int.floor ((w x y).waterEndAt - now) ∧
    ((deserializeTile now2 x y (serializeTile now (w x y))).watered = true ∧
      (w x y).waterEndAt - now - 1 <
        (deserializeTile now2 x y (serializeTile now (w x y))).waterEndAt - now2 ∧
      (deserializeTile now2 x y (serializeTile now (w x y))).waterEndAt - now2 ≤
        (w x y).waterEndAt - now) ∧
    ((deserializeTile now2 x y (serializeTile now (w x y))).tilled = (w x y).tilled ∧
      (deserializeTile now2 x y (serializeTile now (w x y))).tileId = (w x y).tileId ∧
      (deserializeTile now2 x y (serializeTile now (w x y))).walkable = (w x y).walkable) ∧
    ((deserializeTile now2 x y (serializeTile now (w x y))).plant.map Plant.type =
        (w x y).plant.map Plant.type ∧
      (deserializeTile now2 x y (serializeTile now (w x y))).plant.map Plant.stage =
        (w x y).plant.map Plant.stage ∧
      ∀ p p', (w x y).plant = some p →
        (deserializeTile now2 x y (serializeTile now (w x y))).plant = some p' →
        p.growthMs - 1 < p'.growthMs ∧ p'.growthMs ≤ p.growthMs) := by
  obtain ⟨hx0, hy0, hxW, hyH⟩ := hb
  have hmaxfl : max 0 (Int.floor ((w x y).waterEndAt - now)) =
      Int.floor ((w x y).waterEndAt - now) :=
    max_eq_right (Int.floor_nonneg.mpr hr)
  refine ⟨?_, ?_, ⟨?_, ?_, ?_⟩, ⟨?_, ?_, ?_⟩, ?_, ?_, ?_⟩
  · simp only [deserializeWorld, serializeWorld, if_pos (⟨hx0, hy0, hxW, hyH⟩ : inBounds x y)]
    rw [List.getElem?_map, List.getElem?_range (by omega : y.toNat < WORLD_H.toNat)]
    simp only [Option.map_some', Option.some_bind]
    rw [List.getElem?_map, List.getElem?_range (by omega : x.toNat < WORLD_W.toNat)]
    simp only [Option.map_some', Int.ofNat_eq_coe, Int.toNat_of_nonneg hx0,
      Int.toNat_of_nonneg hy0]
    exact if_pos ⟨hx0, hy0, hxW, hyH⟩
  · simp [serializeTile, hw, hmaxfl]
  · simp [deserializeTile, serializeTile, hw]
  · simp only [deserializeTile, serializeTile, hw, if_pos rfl, hmaxfl]
    have := Int.sub_one_lt_floor ((w x y).waterEndAt - now)
    push_cast
    linarith
  · simp only [deserializeTile, serializeTile, hw, if_pos rfl, hmaxfl]
    have := Int.floor_le ((w x y).waterEndAt - now)
    push_cast
    linarith
  · simp [deserializeTile, serializeTile]
  · simp [deserializeTile, serializeTile, makeTile]
  · simp [deserializeTile, serializeTile, makeTile]
  · simp only [deserializeTile, serializeTile]
    cases (w x y).plant <;> simp
  · simp only [deserializeTile, serializeTile]
    cases (w x y).plant <;> simp
  · intro p p' hp hp'
    simp only [deserializeTile, serializeTile, hp] at hp'
    have h2 : (⟨p.type, p.stage, ((Int.floor p.growthMs : ℤ) : ℚ)⟩ : Plant) = p' :=
      Option.some.inj hp'
    subst h2
    constructor
    · exact Int.sub_one_lt_floor p.growthMs
    · simpa using Int.floor_le p.growthMs

/-- Witness for the round-trip law at a concrete watered tile: save at
`now = 1000` with 4000 ms of water left, load at `now2 = 7`. -/
theorem worldCodec_roundTrip_witness :
    deserializeWorld 7 (serializeWorld 1000 sampleWorld) 3 4 =
      some (deserializeTile 7 3 4 (serializeTile 1000 (sampleWorld 3 4))) ∧
    (serializeTile 1000 (sampleWorld 3 4)).wr =
      Int.floor ((sampleWorld 3 4).waterEndAt - 1000) ∧
    (deserializeTile 7 3 4 (serializeTile 1000 (sampleWorld 3 4))).watered = true := by
  have h := worldCodec_roundTrip sampleWorld 1000 7 3 4
    (by constructor <;> norm_num [WORLD_W, WORLD_H]) rfl (by norm_num [sampleWorld])
  exact ⟨h.1, h.2.1, h.2.2.1.1⟩

/-! ## C6: growth tick -/

/-- Every non-terminal stage of a crop in the `CROPS` table has a
positive required duration. -/
theorem CROPS_stage_pos (ty : String) (c : Crop) (s : ℕ)
    (hc : CROPS ty = some c) (hs : s < c.colors.length - 1) :
    0 < c.stageMs.getD s 0 := by
  unfold CROPS at hc
  split_ifs at hc <;> simp only [Option.some.injEq] at hc <;> subst hc <;>
    simp only [List.length_cons, List.length_nil] at hs <;>
    interval_cases s <;> norm_num [List.getD]

/-- Water-expiry clause of `tickTile`: after a tick the tile is watered
iff it was watered and the tick's timestamp has not reached
`waterEndAt` — independent of any plant. -/
theorem tickTile_watered_iff (dt now : ℚ) (t : Tile) :
    (tickTile dt now t).watered = true ↔ (t.watered = true ∧ now < t.waterEndAt) := by
  by_cases hw : t.watered = true
  · by_cases he : t.waterEndAt ≤ now
    · simp only [tickTile, if_pos (show (t.watered = true) ∧ now ≥ t.waterEndAt from ⟨hw, he⟩)]
      cases hp : t.plant <;> simp [hp, hw, not_lt.mpr he]
    · have hcond : ¬((t.watered = true) ∧ now ≥ t.waterEndAt) := fun h => he h.2
      simp only [tickTile]
      rw [if_neg hcond]
      cases hp : t.plant with
      | none => simp [hw, not_le.mp he]
      | some p =>
        simp only [hp]
        rw [if_pos hw]
        cases hc : CROPS p.type with
        | none => simp [hc, hw, not_le.mp he]
        | some c =>
          simp only [hc]
          split <;> simp [hw, not_le.mp he]
  · simp only [tickTile, if_neg (show ¬((t.watered = true) ∧ now ≥ t.waterEndAt) from
      fun h => hw h.1)]
    cases hp : t.plant <;> simp [hp, hw]

/-- Pause clause of `tickTile`: while the tile is not (effectively)
watered this tick, the plant — in particular its `growthMs` — does not
change. -/
theorem tickTile_plant_unwatered (dt now : ℚ) (t : Tile)
    (h : ¬(t.watered = true ∧ now < t.waterEndAt)) :
    (tickTile dt now t).plant = t.plant := by
  by_cases hw : t.watered = true
  · have he : t.waterEndAt ≤ now := by
      by_contra hlt
      exact h ⟨hw, not_le.mp hlt⟩
    simp only [tickTile, if_pos (show (t.watered = true) ∧ now ≥ t.waterEndAt from ⟨hw, he⟩)]
    cases hp : t.plant <;> simp [hp]
  · simp only [tickTile]
    rw [if_neg (show ¬((t.watered = true) ∧ now ≥ t.waterEndAt) from fun hx => hw hx.1)]
    cases hp : t.plant with
    | none => simp [hp]
    | some p =>
      simp only [hp]
      rw [if_neg hw]
      exact hp

/-- Advance clause of `tickTile`: the plant's stage advances (to
`stage + 1`) iff the tile is watered with unexpired water, the stage is
not terminal, and the accumulated `growthMs` (grown by this tick's `dt`)
reaches the stage's required duration. -/
theorem tickTile_stage_iff (dt now : ℚ) (t : Tile) (p : Plant) (c : Crop)
    (hp : t.plant = some p) (hc : CROPS p.type = some c) :
    ((∃ p', (tickTile dt now t).plant = some p' ∧ p'.stage = p.stage + 1) ↔
      (t.watered = true ∧ now < t.waterEndAt ∧ p.stage < c.colors.length - 1 ∧
        c.stageMs.getD p.stage 0 ≤ p.growthMs + dt)) := by
  by_cases hwat : t.watered = true ∧ now < t.waterEndAt
  · obtain ⟨hw, he⟩ := hwat
    simp only [tickTile]
    rw [if_neg (show ¬((t.watered = true) ∧ now ≥ t.waterEndAt) from
      fun hx => not_le.mpr he hx.2)]
    simp only [hp]
    rw [if_pos hw]
    simp only [hc]
    by_cases hadv : (p.stage < c.colors.length - 1 ∧ 0 < c.stageMs.getD p.stage 0) ∧
        c.stageMs.getD p.stage 0 ≤ p.growthMs + dt
    · rw [if_pos hadv]
      simp only [Option.some.injEq]
      constructor
      · intro _
        exact ⟨hw, he, hadv.1.1, hadv.2⟩
      · intro _
        exact ⟨⟨p.type, p.stage + 1, 0⟩, rfl, rfl⟩
    · rw [if_neg hadv]
      simp only [Option.some.injEq]
      constructor
      · rintro ⟨p', hp', hst⟩
        exfalso
        rw [← hp'] at hst
        simp at hst
      · rintro ⟨_, _, hterm, hge⟩
        exact absurd ⟨⟨hterm, CROPS_stage_pos p.type c p.stage hc hterm⟩, hge⟩ hadv
  · rw [tickTile_plant_unwatered dt now t hwat, hp]
    simp only [Option.some.injEq]
    constructor
    · rintro ⟨p', hp', hst⟩
      exfalso
      rw [← hp'] at hst
      simp at hst
    · rintro ⟨hw, he, _⟩
      exact absurd ⟨hw, he⟩ hwat

/-- Step-size clause of `tickTile`: in one tick the plant's stage either
stays unchanged or advances by exactly one, and on an advance `growthMs`
resets to 0. -/
theorem tickTile_stage_bound (dt now : ℚ) (t : Tile) (p : Plant)
    (hp : t.plant = some p) :
    ∀ p', (tickTile dt now t).plant = some p' →
      p'.stage = p.stage ∨ (p'.stage = p.stage + 1 ∧ p'.growthMs = 0) := by
  intro p' hp'
  by_cases hwat : t.watered = true ∧ now < t.waterEndAt
  · obtain ⟨hw, he⟩ := hwat
    simp only [tickTile] at hp'
    rw [if_neg (show ¬((t.watered = true) ∧ now ≥ t.waterEndAt) from
      fun hx => not_le.mpr he hx.2)] at hp'
    simp only [hp] at hp'
    rw [if_pos hw] at hp'
    cases hc : CROPS p.type with
    | none =>
      simp only [hc, hp, Option.some.injEq] at hp'
      left
      rw [← hp']
    | some c =>
      simp only [hc] at hp'
      by_cases hadv : (p.stage < c.colors.length - 1 ∧ 0 < c.stageMs.getD p.stage 0) ∧
          c.stageMs.getD p.stage 0 ≤ p.growthMs + dt
      · rw [if_pos hadv] at hp'
        simp only [Option.some.injEq] at hp'
        right
        rw [← hp']
        exact ⟨rfl, rfl⟩
      · rw [if_neg hadv] at hp'
        simp only [Option.some.injEq] at hp'
        left
        rw [← hp']
  · rw [tickTile_plant_unwatered dt now t hwat, hp] at hp'
    left
    cases hp'
    rfl

/-- C6: in every world tick, for every in-bounds tile: the watered flag
survives iff the tick's timestamp has not reached `waterEndAt` (plant or
no plant); a plant's stage advances by exactly 1 iff the tile is
watered (unexpired), the stage is non-terminal and the accumulated
`growthMs` (increased by this tick's `dt`) reaches the stage's required
duration; on advance `growthMs` resets to 0; a step never advances more
than one stage; and the plant (hence `growthMs`) is unchanged while the
tile is unwatered. -/
theorem tickWorld_growth (dt now : ℚ) (w : ℤ → ℤ → Tile) (x y : ℤ)
    (hb : inBounds x y) :
    ((tickWorldFn dt now w x y).watered = true ↔
      ((w x y).watered = true ∧ now < (w x y).waterEndAt)) ∧
    (∀ p c, (w x y).plant = some p → CROPS p.type = some c →
      ((∃ p', (tickWorldFn dt now w x y).plant = some p' ∧ p'.stage = p.stage + 1) ↔
        ((w x y).watered = true ∧ now < (w x y).waterEndAt ∧
          p.stage < c.colors.length - 1 ∧
          c.stageMs.getD p.stage 0 ≤ p.growthMs + dt)) ∧
      (∀ p', (tickWorldFn dt now w x y).plant = some p' →
        p'.stage = p.stage ∨ (p'.stage = p.stage + 1 ∧ p'.growthMs = 0)) ∧
      (¬((w x y).watered = true ∧ now < (w x y).waterEndAt) →
        (tickWorldFn dt now w x y).plant = some p)) := by
  have hfn : tickWorldFn dt now w x y = tickTile dt now (w x y) := by
    simp [tickWorldFn, hb]
  rw [hfn]
  refine ⟨tickTile_watered_iff dt now (w x y), ?_⟩
  intro p c hp hc
  refine ⟨tickTile_stage_iff dt now (w x y) p c hp hc,
    tickTile_stage_bound dt now (w x y) p hp, ?_⟩
  intro hun
  rw [tickTile_plant_unwatered dt now (w x y) hun, hp]

/-- Witness for C6 at a concrete tile: the sample world's watered tile
with a stage-1 turnip (12000 ms needed, 300 ms accumulated) ticked by
`dt = 11700` at `now = 10`: the stage advances to 2 with `growthMs = 0`,
and the watered flag survives (water ends at 5000 > 10). -/
theorem tickWorld_growth_witness :
    ((tickWorldFn 11700 10 sampleWorld 3 4).watered = true ↔
      ((sampleWorld 3 4).watered = true ∧ (10:ℚ) < (sampleWorld 3 4).waterEndAt)) ∧
    (∃ p', (tickWorldFn 11700 10 sampleWorld 3 4).plant = some p' ∧
      p'.stage = (1:ℕ) + 1) := by
  have h := tickWorld_growth 11700 10 sampleWorld 3 4
    (by constructor <;> norm_num [WORLD_W, WORLD_H])
  refine ⟨h.1, ?_⟩
  have h2 := (h.2 ⟨"turnip", 1, 300⟩
    ⟨"Turnip", 10, 25, [8000, 12000, 0], ["#7a552e", "#7fc96b", "#4ea24d"]⟩
    rfl (by norm_num [CROPS])).1
  exact h2.mpr ⟨rfl, by norm_num [sampleWorld], by norm_num, by norm_num [List.getD]⟩

/-! ## C10: player movement stays on walkable, unblocked, in-bounds tiles -/

/-- C10: `stepPlayer` never changes the world or the decoration layer; a
tile is unblocked exactly when it is inside the `WORLD_W × WORLD_H` grid,
walkable, and carries no tree or mineral decoration; the player's
position changes only onto an unblocked tile; hence a player on an
unblocked tile is still on an unblocked tile after every `stepPlayer`. -/
theorem stepPlayer_safe (s : GState) (desired : Option String) (now : ℚ) :
    (∀ x y, isBlocked s.world s.decor x y = false ↔
      (inBounds x y ∧ (s.world x y).walkable = true ∧
        ∀ d, decorAt s.decor x y = some d → d.type ≠ "Trees" ∧ d.type ≠ "minerals")) ∧
    (stepPlayer s desired now).world = s.world ∧
    (stepPlayer s desired now).decor = s.decor ∧
    (((stepPlayer s desired now).player.x, (stepPlayer s desired now).player.y) ≠
        (s.player.x, s.player.y) →
      isBlocked s.world s.decor (stepPlayer s desired now).player.x
        (stepPlayer s desired now).player.y = false) ∧
    (isBlocked s.world s.decor s.player.x s.player.y = false →
      isBlocked s.world s.decor (stepPlayer s desired now).player.x
        (stepPlayer s desired now).player.y = false) := by
  have hchar : ∀ x y, isBlocked s.world s.decor x y = false ↔
      (inBounds x y ∧ (s.world x y).walkable = true ∧
        ∀ d, decorAt s.decor x y = some d → d.type ≠ "Trees" ∧ d.type ≠ "minerals") := by
    intro x y
    unfold isBlocked
    by_cases hin : inBounds x y
    · rw [if_neg (by simpa using hin)]
      by_cases hwk : (s.world x y).walkable = true
      · rw [if_neg (by simp [hwk])]
        cases hd : decorAt s.decor x y with
        | none => simp [hin, hwk]
        | some d => simp [hin, hwk, not_or]
      · rw [if_pos (by simpa using hwk)]
        simp [hwk]
    · rw [if_pos (by simpa using hin)]
      simp [hin]
  refine ⟨hchar, ?_⟩
  unfold stepPlayer
  by_cases hg : s.gather.active = true
  · rw [if_pos hg]
    exact ⟨rfl, rfl, fun h => absurd rfl h, fun h => h⟩
  · rw [if_neg hg]
    cases desired with
    | none => exact ⟨rfl, rfl, fun h => absurd rfl h, fun h => h⟩
    | some dir =>
      dsimp only
      by_cases hcool : now - s.player.lastMoveAt < MOVE_COOLDOWN_MS
      · rw [if_pos hcool]
        exact ⟨rfl, rfl, fun h => absurd rfl h, fun h => h⟩
      · rw [if_neg hcool]
        by_cases hblk : isBlocked s.world s.decor
            (s.player.x + (if dir = "left" then -1 else if dir = "right" then 1 else 0))
            (s.player.y + (if dir = "up" then -1 else if dir = "down" then 1 else 0)) = true
        · rw [if_neg (by simpa using hblk)]
          exact ⟨rfl, rfl, fun h => absurd rfl h, fun h => h⟩
        · rw [if_pos (by simpa using hblk)]
          have hfalse : isBlocked s.world s.decor
              (s.player.x + (if dir = "left" then -1 else if dir = "right" then 1 else 0))
              (s.player.y + (if dir = "up" then -1 else if dir = "down" then 1 else 0)) = false :=
            Bool.eq_false_iff.mpr hblk
          exact ⟨rfl, rfl, fun _ => hfalse, fun _ => hfalse⟩

/-- Witness for C10: in the sample state the player steps right from
(1,1) to (2,1), which is unblocked. -/
theorem stepPlayer_safe_witness :
    isBlocked sampleState.world sampleState.decor sampleState.player.x
      sampleState.player.y = false ∧
    isBlocked sampleState.world sampleState.decor
      (stepPlayer sampleState (some "right") 1000).player.x
      (stepPlayer sampleState (some "right") 1000).player.y = false := by
  have hstart : isBlocked sampleState.world sampleState.decor sampleState.player.x
      sampleState.player.y = false := by
    decide
  exact ⟨hstart, (stepPlayer_safe sampleState (some "right") 1000).2.2.2.2 hstart⟩

/-! ## C9: gather-start rejection paths -/

/-- C9: starting a gather on a depleted decoration (`remainingHarvests ≤ 0`)
or with stamina strictly below 1 changes nothing: the returned state is
the input state (inventory, stamina, decorations included), a floating
in-world signal is produced instead of an exception, and the gather state
machine stays idle. -/
theorem startGathering_rejects (s : GState) (idx : ℕ) (now : ℚ) (d : Decor)
    (hd : s.decor[idx]? = some d)
    (hidle : s.gather.active = false)
    (hrej : s.stamina < 1 ∨ ∃ rh, d.remainingHarvests = some rh ∧ rh ≤ 0) :
    (startGathering s idx now).1 = s ∧
    ((startGathering s idx now).2).isSome = true ∧
    (startGathering s idx now).1.gather.active = false ∧
    (startGathering s idx now).1.stamina = s.stamina ∧
    (startGathering s idx now).1.inv = s.inv ∧
    (startGathering s idx now).1.decor = s.decor := by
  unfold startGathering
  simp only [hd]
  by_cases hdep : harvestsDepleted d = true
  · rw [if_pos hdep]
    exact ⟨rfl, rfl, hidle, rfl, rfl, rfl⟩
  · rw [if_neg hdep]
    have hst : s.stamina < 1 := by
      rcases hrej with h | ⟨rh, hrh, hle⟩
      · exact h
      · exfalso
        apply hdep
        unfold harvestsDepleted
        rw [hrh]
        exact decide_eq_true hle
    rw [if_pos hst]
    exact ⟨rfl, rfl, hidle, rfl, rfl, rfl⟩

/-- Witness for C9: the sample state with zero stamina; starting a gather
on its (non-depleted) mineral changes nothing and yields a signal. -/
theorem startGathering_rejects_witness :
    (startGathering { sampleState with stamina := 0 } 0 77).1 =
      { sampleState with stamina := 0 } ∧
    ((startGathering { sampleState with stamina := 0 } 0 77).2).isSome = true ∧
    (startGathering { sampleState with stamina := 0 } 0 77).1.gather.active = false := by
  have h := startGathering_rejects { sampleState with stamina := 0 } 0 77
    ⟨3, 4, "minerals", "Copper Ore", some 1⟩ rfl rfl (Or.inl (by norm_num))
  exact ⟨h.1, h.2.1, h.2.2.1⟩

/-! ## C8: teleport rejection vs. velocity estimation -/

/-- C8: for both presence-update handlers (periodic `sync` snapshot and
`movement` broadcast): when the incoming delta from the previous
authoritative target exceeds 3 tiles on either axis, the estimated
velocity is zeroed and the rendered position snaps to the new target;
when the delta is within 3 tiles on both axes (and at least 1 ms has
elapsed, with a nonzero baseline), the velocity is the delta divided by
the elapsed seconds and the rendered position is left unsmoothed. -/
theorem remoteView_update_spec (v : RemoteView) (x y now : ℚ) (f : Option String) :
    ((3 < |(Int.floor x : ℚ) - v.tx| ∨ 3 < |(Int.floor y : ℚ) - v.ty|) →
      ((applySyncUpdate v x y now).vx = 0 ∧ (applySyncUpdate v x y now).vy = 0 ∧
        (applySyncUpdate v x y now).rx = (Int.floor x : ℚ) ∧
        (applySyncUpdate v x y now).ry = (Int.floor y : ℚ) ∧
        (applySyncUpdate v x y now).tx = (Int.floor x : ℚ) ∧
        (applySyncUpdate v x y now).ty = (Int.floor y : ℚ)) ∧
      ((applyMovementUpdate v x y f now).vx = 0 ∧
        (applyMovementUpdate v x y f now).vy = 0 ∧
        (applyMovementUpdate v x y f now).rx = (Int.floor x : ℚ) ∧
        (applyMovementUpdate v x y f now).ry = (Int.floor y : ℚ) ∧
        (applyMovementUpdate v x y f now).tx = (Int.floor x : ℚ) ∧
        (applyMovementUpdate v x y f now).ty = (Int.floor y : ℚ))) ∧
    (|(Int.floor x : ℚ) - v.tx| ≤ 3 → |(Int.floor y : ℚ) - v.ty| ≤ 3 →
      1 ≤ now - v.lastUpdate → v.lastUpdate ≠ 0 →
      ((applySyncUpdate v x y now).vx =
          ((Int.floor x : ℚ) - v.tx) / ((now - v.lastUpdate) / 1000) ∧
        (applySyncUpdate v x y now).vy =
          ((Int.floor y : ℚ) - v.ty) / ((now - v.lastUpdate) / 1000) ∧
        (applySyncUpdate v x y now).rx = v.rx ∧
        (applySyncUpdate v x y now).ry = v.ry) ∧
      ((applyMovementUpdate v x y f now).vx =
          ((Int.floor x : ℚ) - v.tx) / ((now - v.lastUpdate) / 1000) ∧
        (applyMovementUpdate v x y f now).vy =
          ((Int.floor y : ℚ) - v.ty) / ((now - v.lastUpdate) / 1000) ∧
        (applyMovementUpdate v x y f now).rx = v.rx ∧
        (applyMovementUpdate v x y f now).ry = v.ry)) := by
  constructor
  · intro hbig
    have hcond : ¬(|(Int.floor x : ℚ) - v.tx| ≤ 3 ∧ |(Int.floor y : ℚ) - v.ty| ≤ 3) := by
      rcases hbig with h | h
      · exact fun hc => absurd hc.1 (not_le.mpr h)
      · exact fun hc => absurd hc.2 (not_le.mpr h)
    constructor
    · unfold applySyncUpdate
      dsimp only
      rw [if_neg hcond]
      split <;> simp
    · unfold applyMovementUpdate
      dsimp only
      rw [if_neg hcond]
      simp
  · intro hdx hdy helapsed hlu0
    have hdt : max (1/1000 : ℚ) ((now - v.lastUpdate) / 1000) =
        (now - v.lastUpdate) / 1000 :=
      max_eq_right (by linarith)
    have hin : |(Int.floor x : ℚ) - v.tx| ≤ 3 ∧ |(Int.floor y : ℚ) - v.ty| ≤ 3 :=
      ⟨hdx, hdy⟩
    constructor
    · unfold applySyncUpdate
      dsimp only
      rw [if_pos hin, hdt]
      split <;> simp
    · unfold applyMovementUpdate
      dsimp only
      rw [if_neg hlu0, if_pos hin, hdt]
      simp

/-- Witness for C8's two regimes at concrete updates on a view with
target (0,0), last updated at 500 ms: an update to (10,0) at `now = 1500`
snaps (teleport); an update to (2,1) smooths with velocity (2,1)
tiles/sec. -/
theorem remoteView_update_spec_witness :
    ((applySyncUpdate ⟨0, 0, 0, 0, 0, 0, "down", 500⟩ 10 0 1500).vx = 0 ∧
      (applySyncUpdate ⟨0, 0, 0, 0, 0, 0, "down", 500⟩ 10 0 1500).rx =
        ((Int.floor (10:ℚ) : ℤ) : ℚ)) ∧
    ((applySyncUpdate ⟨0, 0, 0, 0, 0, 0, "down", 500⟩ 2 1 1500).vx =
        ((Int.floor (2:ℚ) : ℤ) : ℚ) / ((1500 - 500) / 1000) ∧
      (applySyncUpdate ⟨0, 0, 0, 0, 0, 0, "down", 500⟩ 2 1 1500).rx = 0) := by
  have hfl10 : ((Int.floor (10:ℚ) : ℤ) : ℚ) = 10 := by norm_num
  have hfl2 : ((Int.floor (2:ℚ) : ℤ) : ℚ) = 2 := by norm_num
  have hfl1 : ((Int.floor (1:ℚ) : ℤ) : ℚ) = 1 := by norm_num
  have h1 := (remoteView_update_spec ⟨0, 0, 0, 0, 0, 0, "down", 500⟩ 10 0 1500 none).1
    (Or.inl (by rw [hfl10]; norm_num))
  have h2 := (remoteView_update_spec ⟨0, 0, 0, 0, 0, 0, "down", 500⟩ 2 1 1500 none).2
    (by rw [hfl2]; norm_num) (by rw [hfl1]; norm_num) (by norm_num) (by norm_num)
  refine ⟨⟨h1.1.1, ?_⟩, ⟨?_, ?_⟩⟩
  · rw [h1.1.2.2.1]
  · rw [h2.1.1]
    norm_num
  · rw [h2.1.2.2.1]

/-! ## C5: effects of a completed gather -/

/-- Two appended lists differ whenever some fixed number of trailing
elements differ. -/
theorem ne_of_rev_take_ne (xs ys s t : List Char) (k : ℕ)
    (hk1 : k ≤ s.length) (hk2 : k ≤ t.length)
    (hne : s.reverse.take k ≠ t.reverse.take k) :
    xs ++ s ≠ ys ++ t := by
  intro h
  apply hne
  have h1 := congrArg List.reverse h
  simp only [List.reverse_append] at h1
  calc s.reverse.take k
      = (s.reverse ++ xs.reverse).take k :=
        (List.take_append_of_le_length (by simpa using hk1)).symm
    _ = (t.reverse ++ ys.reverse).take k := by rw [h1]
    _ = t.reverse.take k := List.take_append_of_le_length (by simpa using hk2)

/-- String version: two concatenations differ whenever their suffixes
differ in the last `k` characters. -/
theorem string_ne_of_suffix (a b s t : String) (k : ℕ)
    (hk1 : k ≤ s.data.length) (hk2 : k ≤ t.data.length)
    (hne : s.data.reverse.take k ≠ t.data.reverse.take k) :
    a ++ s ≠ b ++ t := by
  intro h
  exact ne_of_rev_take_ne a.data b.data s.data t.data k hk1 hk2 hne
    (congrArg String.data h)

/-- The quality roll always lands in the five-name quality table. -/
theorem rollQualityName_mem (roll : ℚ) :
    rollQualityName roll ∈
      (["Dull", "Normal", "Refined", "Pristine", "Exquisite"] : List String) := by
  simp only [rollQualityName, QUALITIES, rollQualityGo]
  split_ifs <;> simp

/-- A per-identity gather key (ending in a quality name) never collides
with a bonus-seed key (ending in `__Unknown__Unknown`). -/
theorem gatherKey_ne_seedKey (pre base quality : String)
    (hq : quality ∈ (["Dull", "Normal", "Refined", "Pristine", "Exquisite"] : List String)) :
    pre ++ quality ≠ base ++ " Seed" ++ "__Unknown__Unknown" := by
  fin_cases hq <;>
    exact string_ne_of_suffix _ _ _ _ 4 (by decide) (by decide) (by decide)

/-- C5: a completed gather on a gatherable decoration with at least one
harvest left and at least 1 stamina: the legacy aggregate stack and the
per-identity `name__rarity__quality` stack each grow by exactly 1 (the
bonus-seed stack, when hit, is a different key); the item's `itemMeta`
records the new total and the last-seen rarity/quality/category/source;
the category-mapped skill (mineral→mining, flower→flower,
tree→harvesting) gains 1 exp (stated below the level-up threshold);
stamina drops by exactly 1; and `remainingHarvests` drops by 1 — on
reaching 0 the decoration is removed and its tile made walkable again,
otherwise it stays with the decremented counter. -/
theorem finishGathering_effects (rng : ℕ → ℚ) (s : GState) (idx : ℕ) (d : Decor)
    (rh : ℤ) (name : String)
    (htgt : s.gather.target = some idx)
    (hd : s.decor[idx]? = some d)
    (hname : gatherItemName (gatherCategory d.type)
      (gatherNodeName (gatherCategory d.type) d.kind) = some name)
    (hrh : d.remainingHarvests = some rh)
    (hrh1 : 1 ≤ rh)
    (hst : 1 ≤ s.stamina)
    (hb : inBounds d.x d.y) :
    (finishGathering rng s).inv.items name = s.inv.items name + 1 ∧
    (finishGathering rng s).inv.gitems
        (name ++ "__" ++ gatherRolledRarity rng ++ "__" ++ gatherRolledQuality rng) =
      s.inv.gitems
        (name ++ "__" ++ gatherRolledRarity rng ++ "__" ++ gatherRolledQuality rng) + 1 ∧
    (∃ mm, (finishGathering rng s).inv.itemMeta name = some mm ∧
      mm.last = some ⟨gatherRolledRarity rng, gatherRolledQuality rng,
        gatherCategory d.type, gatherNodeName (gatherCategory d.type) d.kind⟩ ∧
      mm.total = ((s.inv.itemMeta name).getD ⟨0, fun _ => 0, fun _ => 0, none⟩).total + 1) ∧
    (∀ key sk0, skillForCategory (gatherCategory d.type) = some key →
      ensureSkills s.skills key = some sk0 →
      sk0.exp + 1 < expNeededFor sk0.level →
      (finishGathering rng s).skills key = some ⟨sk0.level, sk0.exp + 1⟩) ∧
    (finishGathering rng s).stamina = s.stamina - 1 ∧
    (rh = 1 →
      (finishGathering rng s).decor = s.decor.eraseIdx idx ∧
      ((finishGathering rng s).world d.x d.y).walkable = true) ∧
    (1 < rh →
      (finishGathering rng s).decor =
        s.decor.set idx { d with remainingHarvests := some (rh - 1) }) := by
  have hqmem : gatherRolledQuality rng ∈
      (["Dull", "Normal", "Refined", "Pristine", "Exquisite"] : List String) :=
    rollQualityName_mem _
  have hkey : (name ++ "__" ++ gatherRolledRarity rng ++ "__") ++ gatherRolledQuality rng ≠
      jsTrim d.kind ++ " Seed" ++ "__Unknown__Unknown" := by
    have := gatherKey_ne_seedKey (name ++ "__" ++ gatherRolledRarity rng ++ "__")
      (jsTrim d.kind) (gatherRolledQuality rng) hqmem
    simpa using this
  simp only [finishGathering, htgt, hd, hname, hrh, gatherRolledRarity,
    gatherRolledQuality] at *
  refine ⟨?_, ?_, ?_, ?_, ?_, ?_, ?_⟩
  · rw [apply_ite GState.inv]
    dsimp only
    rw [ite_self]
    simp [bump]
  · rw [apply_ite GState.inv]
    dsimp only
    rw [ite_self]
    by_cases hseed : ((gatherCategory d.type = "tree" ∨ gatherCategory d.type = "flower") ∧
        rng ((rollRarityGo rng RARITIES 0).2 + 1) < 1/50 ∧ d.kind ≠ "" ∧ jsTrim d.kind ≠ "")
    · rw [if_pos hseed]
      simp only [bump]
      rw [if_neg hkey]
      simp
    · rw [if_neg hseed]
      simp only [bump]
      simp
  · rw [apply_ite GState.inv]
    dsimp only
    rw [ite_self]
    refine ⟨⟨((s.inv.itemMeta name).getD ⟨0, fun _ => 0, fun _ => 0, none⟩).total + 1,
      bump ((s.inv.itemMeta name).getD ⟨0, fun _ => 0, fun _ => 0, none⟩).countsByRarity
        ((rollRarityGo rng RARITIES 0).1),
      bump ((s.inv.itemMeta name).getD ⟨0, fun _ => 0, fun _ => 0, none⟩).countsByQuality
        (rollQualityName (rng (rollRarityGo rng RARITIES 0).2)),
      some ⟨(rollRarityGo rng RARITIES 0).1,
        rollQualityName (rng (rollRarityGo rng RARITIES 0).2),
        gatherCategory d.type, gatherNodeName (gatherCategory d.type) d.kind⟩⟩,
      by simp, rfl, rfl⟩
  · intro key sk0 hkeyc hsk0 hlt
    rw [apply_ite GState.skills]
    dsimp only
    rw [ite_self]
    simp only [hkeyc]
    unfold awardSkillExp
    simp only [hsk0]
    rw [if_pos trivial]
    unfold levelLoop
    rw [dif_neg (not_le.mpr hlt)]
  · rw [apply_ite GState.stamina]
    dsimp only
    rw [ite_self]
    exact max_eq_right (by linarith)
  · intro h1
    subst h1
    rw [if_pos (by norm_num : max 0 ((1:ℤ) - 1) = 0)]
    refine ⟨rfl, ?_⟩
    dsimp only
    rw [if_pos ⟨hb, rfl, rfl⟩]
  · intro h1
    rw [show max 0 (rh - 1) = rh - 1 from max_eq_right (by omega),
      if_neg (by omega : ¬(rh - 1 = 0))]

/-- Witness for C5: one completed gather on the sample state's mineral
(`remainingHarvests = 1`, stamina 5, rng constantly 1/2): both stacks
gain 1, stamina drops to 4, the decoration is removed, and its tile is
walkable again. -/
theorem finishGathering_effects_witness :
    (finishGathering (fun _ => 1/2) sampleState).inv.items "Copper Ore" =
      sampleState.inv.items "Copper Ore" + 1 ∧
    (finishGathering (fun _ => 1/2) sampleState).inv.gitems
        ("Copper Ore" ++ "__" ++ gatherRolledRarity (fun _ => 1/2) ++ "__" ++
          gatherRolledQuality (fun _ => 1/2)) =
      sampleState.inv.gitems
        ("Copper Ore" ++ "__" ++ gatherRolledRarity (fun _ => 1/2) ++ "__" ++
          gatherRolledQuality (fun _ => 1/2)) + 1 ∧
    (finishGathering (fun _ => 1/2) sampleState).stamina = sampleState.stamina - 1 ∧
    (finishGathering (fun _ => 1/2) sampleState).decor = sampleState.decor.eraseIdx 0 ∧
    ((finishGathering (fun _ => 1/2) sampleState).world 3 4).walkable = true := by
  have h := finishGathering_effects (fun _ => (1:ℚ)/2) sampleState 0
    ⟨3, 4, "minerals", "Copper Ore", some 1⟩ 1 "Copper Ore"
    rfl rfl (by decide) rfl (by decide) (by norm_num [sampleState]) (by decide)
  exact ⟨h.1, h.2.1, h.2.2.2.2.1, (h.2.2.2.2.2.1 rfl).1, (h.2.2.2.2.2.1 rfl).2⟩

end Junkora
